import Mathlib

attribute [local semireducible] Rat.add Rat.mul Rat.sub Rat.inv

/-- JSON values as produced by Python json.loads. -/
inductive Json where
  | null : Json
  | bool (b : Bool) : Json
  | num (q : ℚ) : Json
  | str (s : String) : Json
  | arr (elems : List Json) : Json
  | obj (members : List (String × Json)) : Json

/-- Python exceptions relevant to main.py. -/
inductive PyExc where
  | eofError : PyExc
  | jsonDecodeError : PyExc
  | keyError (key : String) : PyExc
  | typeError : PyExc
  | valueError : PyExc
deriving DecidableEq, Repr

instance {ε α : Type} [DecidableEq ε] [DecidableEq α] : DecidableEq (Except ε α) := fun a b =>
  match a, b with
  | Except.ok x, Except.ok y =>
    if h : x = y then isTrue (by rw [h]) else isFalse (by intro hc; cases hc; exact h rfl)
  | Except.ok _, Except.error _ => isFalse (by intro hc; cases hc)
  | Except.error _, Except.ok _ => isFalse (by intro hc; cases hc)
  | Except.error e, Except.error f =>
    if h : e = f then isTrue (by rw [h]) else isFalse (by intro hc; cases hc; exact h rfl)

def lbraceC : Char := Char.ofNat 123
def rbraceC : Char := Char.ofNat 125
def quoteC : Char := Char.ofNat 34
def backslashC : Char := Char.ofNat 92

/-- JSON whitespace characters (space, tab, newline, carriage return). -/
def isWsC (c : Char) : Bool := c = ' ' || c = Char.ofNat 9 || c = Char.ofNat 10 || c = Char.ofNat 13

def skipWs : List Char → List Char
  | [] => []
  | c :: cs => if isWsC c then skipWs cs else c :: cs

def digitVal (c : Char) : Option Nat :=
  if c.isDigit then some (c.toNat - 48) else none

def takeDigits : List Char → List Nat × List Char
  | [] => ([], [])
  | c :: cs =>
    match digitVal c with
    | some d => let (ds, r) := takeDigits cs; (d :: ds, r)
    | none => ([], c :: cs)

def digitsToNat (ds : List Nat) : Nat := ds.foldl (fun a d => a * 10 + d) 0

def hexVal (c : Char) : Option Nat :=
  if c.isDigit then some (c.toNat - 48)
  else if 'a' ≤ c ∧ c ≤ 'f' then some (c.toNat - 87)
  else if 'A' ≤ c ∧ c ≤ 'F' then some (c.toNat - 55)
  else none

/-- Decode one escape sequence after a backslash; returns the char and remaining input. -/
def parseEscape : List Char → Option (Char × List Char)
  | [] => none
  | e :: cs =>
    if e = quoteC then some (quoteC, cs)
    else if e = backslashC then some (backslashC, cs)
    else if e = '/' then some ('/', cs)
    else if e = 'b' then some (Char.ofNat 8, cs)
    else if e = 'f' then some (Char.ofNat 12, cs)
    else if e = 'n' then some (Char.ofNat 10, cs)
    else if e = 'r' then some (Char.ofNat 13, cs)
    else if e = 't' then some (Char.ofNat 9, cs)
    else if e = 'u' then
      match cs with
      | h1 :: h2 :: h3 :: h4 :: cs4 =>
        match hexVal h1, hexVal h2, hexVal h3, hexVal h4 with
        | some v1, some v2, some v3, some v4 =>
          some (Char.ofNat (((v1 * 16 + v2) * 16 + v3) * 16 + v4), cs4)
        | _, _, _, _ => none
      | _ => none
    else none

/-- Body of a JSON string after the opening quote, fuel-bounded. -/
def parseStringBody : Nat → List Char → Option (String × List Char)
  | 0, _ => none
  | _, [] => none
  | fuel + 1, c :: cs =>
    if c = quoteC then some ("", cs)
    else if c = backslashC then
      match parseEscape cs with
      | some (ch, rest) =>
        match parseStringBody fuel rest with
        | some (s, r) => some (String.singleton ch ++ s, r)
        | none => none
      | none => none
    else
      match parseStringBody fuel cs with
      | some (s, r) => some (String.singleton c ++ s, r)
      | none => none

/-- A JSON number (strict RFC 8259 grammar, as the Python json module accepts). -/
def parseNumber (cs : List Char) : Option (ℚ × List Char) :=
  let (neg, cs1) := match cs with
    | '-' :: r => (true, r)
    | _ => (false, cs)
  match takeDigits cs1 with
  | ([], _) => none
  | (ids, cs2) =>
    if 1 < ids.length ∧ ids.headD 0 = 0 then none
    else
      let fracRes : Option (List Nat × List Char) :=
        match cs2 with
        | '.' :: r =>
          match takeDigits r with
          | ([], _) => none
          | (fds, r2) => some (fds, r2)
        | _ => some ([], cs2)
      match fracRes with
      | none => none
      | some (fds, cs3) =>
        let expRes : Option (Int × List Char) :=
          match cs3 with
          | c :: r =>
            if c = 'e' ∨ c = 'E' then
              let (esgn, r1) : Int × List Char := match r with
                | '+' :: r2 => (1, r2)
                | '-' :: r2 => (-1, r2)
                | _ => (1, r)
              match takeDigits r1 with
              | ([], _) => none
              | (eds, r2) => some (esgn * (digitsToNat eds : Int), r2)
            else some (0, cs3)
          | [] => some (0, cs3)
        match expRes with
        | none => none
        | some (ex, cs4) =>
          let mantNat : Nat := digitsToNat ids * 10 ^ fds.length + digitsToNat fds
          let mant : Int := if neg then -(mantNat : Int) else (mantNat : Int)
          let base : ℚ := (mant : ℚ) / ((10 : ℚ) ^ fds.length)
          let q : ℚ := if 0 ≤ ex then base * (10 : ℚ) ^ ex.toNat else base / (10 : ℚ) ^ (-ex).toNat
          some (q, cs4)

mutual

/-- Parse one JSON value (leading whitespace allowed), fuel-bounded. -/
def parseVal : Nat → List Char → Except PyExc (Json × List Char)
  | 0, _ => Except.error PyExc.jsonDecodeError
  | fuel + 1, cs =>
    match skipWs cs with
    | [] => Except.error PyExc.jsonDecodeError
    | c :: rest =>
      if c = lbraceC then
        match skipWs rest with
        | [] => Except.error PyExc.jsonDecodeError
        | c2 :: rest2 =>
          if c2 = rbraceC then Except.ok (Json.obj [], rest2)
          else
            match parseObjItems fuel (c2 :: rest2) with
            | Except.ok (kvs, r) => Except.ok (Json.obj kvs, r)
            | Except.error e => Except.error e
      else if c = '[' then
        match skipWs rest with
        | [] => Except.error PyExc.jsonDecodeError
        | c2 :: rest2 =>
          if c2 = ']' then Except.ok (Json.arr [], rest2)
          else
            match parseArrItems fuel (c2 :: rest2) with
            | Except.ok (vs, r) => Except.ok (Json.arr vs, r)
            | Except.error e => Except.error e
      else if c = quoteC then
        match parseStringBody (rest.length + 1) rest with
        | some (s, r) => Except.ok (Json.str s, r)
        | none => Except.error PyExc.jsonDecodeError
      else if c = 't' then
        match rest with
        | 'r' :: 'u' :: 'e' :: r => Except.ok (Json.bool true, r)
        | _ => Except.error PyExc.jsonDecodeError
      else if c = 'f' then
        match rest with
        | 'a' :: 'l' :: 's' :: 'e' :: r => Except.ok (Json.bool false, r)
        | _ => Except.error PyExc.jsonDecodeError
      else if c = 'n' then
        match rest with
        | 'u' :: 'l' :: 'l' :: r => Except.ok (Json.null, r)
        | _ => Except.error PyExc.jsonDecodeError
      else
        match parseNumber (c :: rest) with
        | some (q, r) => Except.ok (Json.num q, r)
        | none => Except.error PyExc.jsonDecodeError

/-- Parse the items of a non-empty JSON array up to and including the closing bracket. -/
def parseArrItems : Nat → List Char → Except PyExc (List Json × List Char)
  | 0, _ => Except.error PyExc.jsonDecodeError
  | fuel + 1, cs =>
    match parseVal fuel cs with
    | Except.error e => Except.error e
    | Except.ok (v, r) =>
      match skipWs r with
      | ',' :: r2 =>
        match parseArrItems fuel r2 with
        | Except.ok (vs, r3) => Except.ok (v :: vs, r3)
        | Except.error e => Except.error e
      | ']' :: r2 => Except.ok ([v], r2)
      | _ => Except.error PyExc.jsonDecodeError

/-- Parse the members of a non-empty JSON object up to and including the closing brace. -/
def parseObjItems : Nat → List Char → Except PyExc (List (String × Json) × List Char)
  | 0, _ => Except.error PyExc.jsonDecodeError
  | fuel + 1, cs =>
    match skipWs cs with
    | [] => Except.error PyExc.jsonDecodeError
    | c :: rest =>
      if c = quoteC then
        match parseStringBody (rest.length + 1) rest with
        | none => Except.error PyExc.jsonDecodeError
        | some (k, r) =>
          match skipWs r with
          | ':' :: r2 =>
            match parseVal fuel r2 with
            | Except.error e => Except.error e
            | Except.ok (v, r3) =>
              match skipWs r3 with
              | [] => Except.error PyExc.jsonDecodeError
              | ',' :: r4 =>
                match parseObjItems fuel r4 with
                | Except.ok (kvs, r5) => Except.ok ((k, v) :: kvs, r5)
                | Except.error e => Except.error e
              | c4 :: r4 =>
                if c4 = rbraceC then Except.ok ([(k, v)], r4)
                else Except.error PyExc.jsonDecodeError
          | _ => Except.error PyExc.jsonDecodeError
      else Except.error PyExc.jsonDecodeError

end

/-- Model of Python json.loads: parse the whole string as one JSON document. -/
def json_loads (s : String) : Except PyExc Json :=
  match parseVal (s.length + 1) s.data with
  | Except.error e => Except.error e
  | Except.ok (j, rest) =>
    match skipWs rest with
    | [] => Except.ok j
    | _ :: _ => Except.error PyExc.jsonDecodeError

/-- Model of Python subscription obj[key] with a string key. -/
def pyIndexStr (j : Json) (k : String) : Except PyExc Json :=
  match j with
  | Json.obj kvs =>
    match kvs.reverse.find? (fun kv => kv.1 = k) with
    | some kv => Except.ok kv.2
    | none => Except.error (PyExc.keyError k)
  | _ => Except.error PyExc.typeError

/-- Model of Python iteration over a value (list items, dict keys, string chars). -/
def pyIter (j : Json) : Except PyExc (List Json) :=
  match j with
  | Json.arr xs => Except.ok xs
  | Json.obj kvs => Except.ok (kvs.map (fun kv => Json.str kv.1))
  | Json.str s => Except.ok (s.data.map (fun c => Json.str (String.singleton c)))
  | _ => Except.error PyExc.typeError


/-- One parsed frame: per-keypoint x, y, z values and labels, in input order. -/
structure Frame where
  x : List Json
  y : List Json
  z : List Json
  labels : List Json

/-- The full parsed result: four parallel outer lists indexed by frame. -/
structure Track where
  x : List (List Json)
  y : List (List Json)
  z : List (List Json)
  labels : List (List Json)

def Track.empty : Track := ⟨[], [], [], []⟩

def Track.push (t : Track) (fr : Frame) : Track :=
  ⟨t.x ++ [fr.x], t.y ++ [fr.y], t.z ++ [fr.z], t.labels ++ [fr.labels]⟩

def trackOf (frames : List Frame) : Track := frames.foldl Track.push Track.empty

/-- The four appends performed for one keypoint inside the loop of json_to_ndarray. -/
def extractKp (kp : Json) : Except PyExc (Json × Json × Json × Json) := do
  let px ← pyIndexStr (← pyIndexStr kp ("Position")) ("x")
  let py ← pyIndexStr (← pyIndexStr kp ("Position")) ("y")
  let pz ← pyIndexStr (← pyIndexStr kp ("Position")) ("z")
  let nm ← pyIndexStr kp ("Name")
  Except.ok (px, py, pz, nm)

/-- The keypoint loop of json_to_ndarray: extract every keypoint in order, first error wins. -/
def extractAll : List Json → Except PyExc (List (Json × Json × Json × Json))
  | [] => Except.ok []
  | kp :: rest =>
    match extractKp kp with
    | Except.error e => Except.error e
    | Except.ok q =>
      match extractAll rest with
      | Except.error e => Except.error e
      | Except.ok qs => Except.ok (q :: qs)

/-- The try-block body of json_to_ndarray for one input line. -/
def readFrame (data_str : String) : Except PyExc Frame := do
  let data_obj ← json_loads data_str
  let keypoints ← pyIndexStr data_obj ("Bones")
  let kps ← pyIter keypoints
  let quads ← extractAll kps
  Except.ok ⟨quads.map (fun q => q.1), quads.map (fun q => q.2.1),
             quads.map (fun q => q.2.2.1), quads.map (fun q => q.2.2.2)⟩

/-- The line loop of json_to_ndarray: per-line parse, break on EOFError, propagate others. -/
def loadLoop (parse : String → Except PyExc Frame) : List String → Track → Except PyExc Track
  | [], acc => Except.ok acc
  | l :: rest, acc =>
    match parse l with
    | Except.ok fr => loadLoop parse rest (acc.push fr)
    | Except.error PyExc.eofError => Except.ok acc
    | Except.error e => Except.error e

/-- Model of json_to_ndarray: the input file as its list of lines. -/
def json_to_ndarray (lines : List String) : Except PyExc Track :=
  loadLoop readFrame lines Track.empty

/-- Model of np.amax over all elements of a 2D array (ValueError on a zero-size array). -/
def amax (xss : List (List ℚ)) : Except PyExc ℚ :=
  match xss.flatten with
  | [] => Except.error PyExc.valueError
  | a :: as => Except.ok (as.foldl max a)

/-- Model of np.amin over all elements of a 2D array (ValueError on a zero-size array). -/
def amin (xss : List (List ℚ)) : Except PyExc ℚ :=
  match xss.flatten with
  | [] => Except.error PyExc.valueError
  | a :: as => Except.ok (as.foldl min a)

/-- Model of get_scatter_scale from main.py. -/
def get_scatter_scale (x y z : List (List ℚ)) : Except PyExc (List (List ℚ)) := do
  let xmax ← amax x
  let xmin ← amin x
  let ymax ← amax y
  let ymin ← amin y
  let zmax ← amax z
  let zmin ← amin z
  let max_range := (max (max (xmax - xmin) (ymax - ymin)) (zmax - zmin)) * (1 / 2)
  let mid_x := (xmax + xmin) * (1 / 2)
  let mid_y := (ymax + ymin) * (1 / 2)
  let mid_z := (zmax + zmin) * (1 / 2)
  Except.ok [[mid_x - max_range, mid_x + max_range],
             [mid_y - max_range, mid_y + max_range],
             [mid_z - max_range, mid_z + max_range]]

/-- Numeric value of a Json leaf, when it is a number. -/
def jnum : Json → Option ℚ
  | Json.num q => some q
  | _ => none

/-- The Name field of a keypoint object, when present. -/
def kpNameJ (kp : Json) : Json :=
  match pyIndexStr kp ("Name") with
  | Except.ok v => v
  | Except.error _ => Json.null

/-- A line that is empty or holds only whitespace. -/
def isWsOnly (s : String) : Bool := s.data.all isWsC

def line1C8 : String := "\x7b\"Bones\": [\x7b\"Position\": \x7b\"x\":0,\"y\":0,\"z\":0\x7d, \"Name\":\"A\"\x7d, \x7b\"Position\":\x7b\"x\":2,\"y\":0,\"z\":0\x7d, \"Name\":\"B\"\x7d]\x7d"
def line2C8 : String := "\x7b\"Bones\": [\x7b\"Position\": \x7b\"x\":0,\"y\":1,\"z\":0\x7d, \"Name\":\"A\"\x7d, \x7b\"Position\":\x7b\"x\":2,\"y\":1,\"z\":0\x7d, \"Name\":\"B\"\x7d]\x7d"


/-- String value of a Json leaf, when it is a string. -/
def jstr : Json → Option String
  | Json.str s => some s
  | _ => none

/-- Whether an Except value is a success. -/
def isOkE {ε α : Type} : Except ε α → Bool
  | Except.ok _ => true
  | Except.error _ => false

/-- The Track that json_to_ndarray produces for the two-line scenario input. -/
def trackC8 : Track :=
  ⟨[[Json.num 0, Json.num 2], [Json.num 0, Json.num 2]],
   [[Json.num 0, Json.num 0], [Json.num 1, Json.num 1]],
   [[Json.num 0, Json.num 0], [Json.num 0, Json.num 0]],
   [[Json.str ("A"), Json.str ("B")], [Json.str ("A"), Json.str ("B")]]⟩

/-- A well-formed input line with an empty keypoint list. -/
def lineEmptyBones : String := "\x7b\"Bones\": []\x7d"

/-- A well-formed input line with a single keypoint named Head at (1, 2, 3). -/
def lineOneKp : String := "\x7b\"Bones\": [\x7b\"Position\": \x7b\"x\":1,\"y\":2,\"z\":3\x7d, \"Name\":\"Head\"\x7d]\x7d"

/-- The keypoint object of lineOneKp as a Json value. -/
def kpOneKp : Json :=
  Json.obj [(("Position"), Json.obj [(("x"), Json.num 1), (("y"), Json.num 2), (("z"), Json.num 3)]),
            (("Name"), Json.str ("Head"))]

/-- The whole Json document of lineOneKp. -/
def docOneKp : Json := Json.obj [(("Bones"), Json.arr [kpOneKp])]

/-- A per-line parse function that reports end of input on every line except the literal a. -/
def parseEofW : String → Except PyExc Frame :=
  fun s => if s = ("a") then Except.ok ⟨[], [], [], []⟩ else Except.error PyExc.eofError

/-- The left fold of max is the initial value or a list member, bounds both from above. -/
theorem foldl_max_spec : ∀ (l : List ℚ) (a : ℚ),
    (l.foldl max a = a ∨ l.foldl max a ∈ l) ∧ a ≤ l.foldl max a ∧ ∀ b ∈ l, b ≤ l.foldl max a := by
  intro l
  induction l with
  | nil => intro a; simp
  | cons c t ih =>
    intro a
    obtain ⟨hmem, hinit, hbound⟩ := ih (max a c)
    refine ⟨?_, ?_, ?_⟩
    · rcases hmem with h | h
      · rcases max_choice a c with hm | hm
        · left
          calc List.foldl max a (c :: t) = List.foldl max (max a c) t := by rw [List.foldl_cons]
            _ = max a c := h
            _ = a := hm
        · right
          have hc : List.foldl max a (c :: t) = c := by
            calc List.foldl max a (c :: t) = List.foldl max (max a c) t := by rw [List.foldl_cons]
              _ = max a c := h
              _ = c := hm
          rw [hc]
          exact List.mem_cons_self c t
      · right
        exact List.mem_cons_of_mem c (by rw [List.foldl_cons]; exact h)
    · exact le_trans (le_max_left a c) hinit
    · intro b hb
      rcases List.mem_cons.mp hb with rfl | hb
      · exact le_trans (le_max_right a b) hinit
      · exact hbound b hb

/-- The left fold of min is the initial value or a list member, bounds both from below. -/
theorem foldl_min_spec : ∀ (l : List ℚ) (a : ℚ),
    (l.foldl min a = a ∨ l.foldl min a ∈ l) ∧ l.foldl min a ≤ a ∧ ∀ b ∈ l, l.foldl min a ≤ b := by
  intro l
  induction l with
  | nil => intro a; simp
  | cons c t ih =>
    intro a
    obtain ⟨hmem, hinit, hbound⟩ := ih (min a c)
    refine ⟨?_, ?_, ?_⟩
    · rcases hmem with h | h
      · rcases min_choice a c with hm | hm
        · left
          calc List.foldl min a (c :: t) = List.foldl min (min a c) t := by rw [List.foldl_cons]
            _ = min a c := h
            _ = a := hm
        · right
          have hc : List.foldl min a (c :: t) = c := by
            calc List.foldl min a (c :: t) = List.foldl min (min a c) t := by rw [List.foldl_cons]
              _ = min a c := h
              _ = c := hm
          rw [hc]
          exact List.mem_cons_self c t
      · right
        exact List.mem_cons_of_mem c (by rw [List.foldl_cons]; exact h)
    · exact le_trans hinit (min_le_left a c)
    · intro b hb
      rcases List.mem_cons.mp hb with rfl | hb
      · exact le_trans hinit (min_le_right a b)
      · exact hbound b hb

/-- On a 2D array with at least one element, amax returns the greatest element. -/
theorem amax_spec (xss : List (List ℚ)) (hne : xss.flatten ≠ []) :
    ∃ M, amax xss = Except.ok M ∧ M ∈ xss.flatten ∧ ∀ b ∈ xss.flatten, b ≤ M := by
  cases hf : xss.flatten with
  | nil => exact absurd hf hne
  | cons a as =>
    obtain ⟨hmem, hinit, hbound⟩ := foldl_max_spec as a
    refine ⟨as.foldl max a, by simp [amax, hf], ?_, ?_⟩
    · rcases hmem with h | h
      · rw [h]; exact List.mem_cons_self a as
      · exact List.mem_cons_of_mem a h
    · intro b hb
      rcases List.mem_cons.mp hb with rfl | hb
      · exact hinit
      · exact hbound b hb

/-- On a 2D array with at least one element, amin returns the least element. -/
theorem amin_spec (xss : List (List ℚ)) (hne : xss.flatten ≠ []) :
    ∃ m, amin xss = Except.ok m ∧ m ∈ xss.flatten ∧ ∀ b ∈ xss.flatten, m ≤ b := by
  cases hf : xss.flatten with
  | nil => exact absurd hf hne
  | cons a as =>
    obtain ⟨hmem, hinit, hbound⟩ := foldl_min_spec as a
    refine ⟨as.foldl min a, by simp [amin, hf], ?_, ?_⟩
    · rcases hmem with h | h
      · rw [h]; exact List.mem_cons_self a as
      · exact List.mem_cons_of_mem a h
    · intro b hb
      rcases List.mem_cons.mp hb with rfl | hb
      · exact hinit
      · exact hbound b hb

/-- amax agrees with any value that is a member and an upper bound of the elements. -/
theorem amax_eq_of (xss : List (List ℚ)) (M : ℚ)
    (hM : M ∈ xss.flatten) (hb : ∀ b ∈ xss.flatten, b ≤ M) : amax xss = Except.ok M := by
  obtain ⟨M2, heq, hmem, hbound⟩ := amax_spec xss (by
    intro h
    rw [h] at hM
    exact absurd hM (List.not_mem_nil M))
  rw [heq, le_antisymm (hbound M hM) (hb M2 hmem)]

/-- amin agrees with any value that is a member and a lower bound of the elements. -/
theorem amin_eq_of (xss : List (List ℚ)) (m : ℚ)
    (hm : m ∈ xss.flatten) (hb : ∀ b ∈ xss.flatten, m ≤ b) : amin xss = Except.ok m := by
  obtain ⟨m2, heq, hmem, hbound⟩ := amin_spec xss (by
    intro h
    rw [h] at hm
    exact absurd hm (List.not_mem_nil m))
  rw [heq, le_antisymm (hb m2 hmem) (hbound m hm)]

/-- Evaluation of get_scatter_scale once the six reductions succeed. -/
theorem get_scatter_scale_eq (x y z : List (List ℚ)) (Mx mx My my Mz mz : ℚ)
    (h1 : amax x = Except.ok Mx) (h2 : amin x = Except.ok mx)
    (h3 : amax y = Except.ok My) (h4 : amin y = Except.ok my)
    (h5 : amax z = Except.ok Mz) (h6 : amin z = Except.ok mz) :
    get_scatter_scale x y z = Except.ok
      [[(Mx + mx) * (1 / 2) - max (max (Mx - mx) (My - my)) (Mz - mz) * (1 / 2),
        (Mx + mx) * (1 / 2) + max (max (Mx - mx) (My - my)) (Mz - mz) * (1 / 2)],
       [(My + my) * (1 / 2) - max (max (Mx - mx) (My - my)) (Mz - mz) * (1 / 2),
        (My + my) * (1 / 2) + max (max (Mx - mx) (My - my)) (Mz - mz) * (1 / 2)],
       [(Mz + mz) * (1 / 2) - max (max (Mx - mx) (My - my)) (Mz - mz) * (1 / 2),
        (Mz + mz) * (1 / 2) + max (max (Mx - mx) (My - my)) (Mz - mz) * (1 / 2)]] := by
  simp [get_scatter_scale, h1, h2, h3, h4, h5, h6, bind, Except.bind]

/-- Pushing a list of frames appends their x rows to the accumulator's x rows. -/
theorem pushAll_x : ∀ (frames : List Frame) (acc : Track),
    (frames.foldl Track.push acc).x = acc.x ++ frames.map (fun fr => fr.x) := by
  intro frames
  induction frames with
  | nil => intro acc; simp
  | cons fr frs ih =>
    intro acc
    simp [List.foldl_cons, ih, Track.push]

/-- Pushing a list of frames appends their y rows to the accumulator's y rows. -/
theorem pushAll_y : ∀ (frames : List Frame) (acc : Track),
    (frames.foldl Track.push acc).y = acc.y ++ frames.map (fun fr => fr.y) := by
  intro frames
  induction frames with
  | nil => intro acc; simp
  | cons fr frs ih =>
    intro acc
    simp [List.foldl_cons, ih, Track.push]

/-- Pushing a list of frames appends their z rows to the accumulator's z rows. -/
theorem pushAll_z : ∀ (frames : List Frame) (acc : Track),
    (frames.foldl Track.push acc).z = acc.z ++ frames.map (fun fr => fr.z) := by
  intro frames
  induction frames with
  | nil => intro acc; simp
  | cons fr frs ih =>
    intro acc
    simp [List.foldl_cons, ih, Track.push]

/-- Pushing a list of frames appends their label rows to the accumulator's label rows. -/
theorem pushAll_labels : ∀ (frames : List Frame) (acc : Track),
    (frames.foldl Track.push acc).labels = acc.labels ++ frames.map (fun fr => fr.labels) := by
  intro frames
  induction frames with
  | nil => intro acc; simp
  | cons fr frs ih =>
    intro acc
    simp [List.foldl_cons, ih, Track.push]

/-- The x rows of trackOf are the x lists of the frames, in order. -/
theorem trackOf_x (frames : List Frame) : (trackOf frames).x = frames.map (fun fr => fr.x) := by
  simp [trackOf, pushAll_x, Track.empty]

/-- The y rows of trackOf are the y lists of the frames, in order. -/
theorem trackOf_y (frames : List Frame) : (trackOf frames).y = frames.map (fun fr => fr.y) := by
  simp [trackOf, pushAll_y, Track.empty]

/-- The z rows of trackOf are the z lists of the frames, in order. -/
theorem trackOf_z (frames : List Frame) : (trackOf frames).z = frames.map (fun fr => fr.z) := by
  simp [trackOf, pushAll_z, Track.empty]

/-- The label rows of trackOf are the label lists of the frames, in order. -/
theorem trackOf_labels (frames : List Frame) :
    (trackOf frames).labels = frames.map (fun fr => fr.labels) := by
  simp [trackOf, pushAll_labels, Track.empty]

/-- When the per-line parse succeeds on a block of lines, the loop folds their frames in. -/
theorem loadLoop_append (parse : String → Except PyExc Frame) :
    ∀ (pre : List String) (frames : List Frame) (rest : List String) (acc : Track),
      List.Forall₂ (fun l fr => parse l = Except.ok fr) pre frames →
      loadLoop parse (pre ++ rest) acc = loadLoop parse rest (frames.foldl Track.push acc) := by
  intro pre frames rest acc h
  induction h generalizing acc with
  | nil => simp
  | cons hhd htl ih =>
    simp only [List.cons_append, loadLoop, hhd, List.foldl_cons]
    exact ih _

/-- When the per-line parse succeeds on every line, the loop returns all frames. -/
theorem loadLoop_all_ok (parse : String → Except PyExc Frame)
    (lines : List String) (frames : List Frame)
    (h : List.Forall₂ (fun l fr => parse l = Except.ok fr) lines frames) :
    loadLoop parse lines Track.empty = Except.ok (trackOf frames) := by
  have happ := loadLoop_append parse lines frames [] Track.empty h
  simpa [loadLoop, trackOf] using happ

/-- If one keypoint extraction succeeds, its fourth component is the Name field. -/
theorem extractKp_name (kp : Json) (q : Json × Json × Json × Json)
    (h : extractKp kp = Except.ok q) : kpNameJ kp = q.2.2.2 := by
  unfold extractKp at h
  cases hpos : pyIndexStr kp ("Position") with
  | error e => simp [hpos, bind, Except.bind] at h
  | ok pos =>
    cases hx : pyIndexStr pos ("x") with
    | error e => simp [hpos, hx, bind, Except.bind] at h
    | ok px =>
      cases hy : pyIndexStr pos ("y") with
      | error e => simp [hpos, hx, hy, bind, Except.bind] at h
      | ok py =>
        cases hz : pyIndexStr pos ("z") with
        | error e => simp [hpos, hx, hy, hz, bind, Except.bind] at h
        | ok pz =>
          cases hnm : pyIndexStr kp ("Name") with
          | error e => simp [hpos, hx, hy, hz, hnm, bind, Except.bind] at h
          | ok nm =>
            simp [hpos, hx, hy, hz, hnm, bind, Except.bind, pure, Except.pure] at h
            simp [kpNameJ, hnm, ← h]

/-- Extraction over a list of keypoints succeeds when it succeeds on each one. -/
theorem extractAll_ok : ∀ (kps : List Json),
    (∀ kp ∈ kps, ∃ q, extractKp kp = Except.ok q) →
    ∃ quads, extractAll kps = Except.ok quads ∧
      List.Forall₂ (fun kp q => extractKp kp = Except.ok q) kps quads := by
  intro kps
  induction kps with
  | nil => intro _; exact ⟨[], rfl, List.Forall₂.nil⟩
  | cons hd tl ih =>
    intro h
    obtain ⟨q, hq⟩ := h hd (List.mem_cons_self hd tl)
    obtain ⟨quads, hqs, hrel⟩ := ih (fun kp hkp => h kp (List.mem_cons_of_mem hd hkp))
    refine ⟨q :: quads, ?_, List.Forall₂.cons hq hrel⟩
    simp [extractAll, hq, hqs]

/-- A pointwise functional relation between two lists yields equal maps. -/
theorem forall₂_map_eq {α β γ : Type} (g : β → γ) (h : α → γ) :
    ∀ {l1 : List α} {l2 : List β},
      List.Forall₂ (fun a b => h a = g b) l1 l2 → l1.map h = l2.map g := by
  intro l1 l2 hrel
  induction hrel with
  | nil => rfl
  | cons hhd htl ih => simp [List.map_cons, hhd, ih]

/-- Every member of the right list of a Forall₂ has a related member on the left. -/
theorem forall₂_mem_right {α β : Type} {P : α → β → Prop} :
    ∀ {l1 : List α} {l2 : List β}, List.Forall₂ P l1 l2 → ∀ b ∈ l2, ∃ a ∈ l1, P a b := by
  intro l1 l2 h
  induction h with
  | nil => intro b hb; exact absurd hb (List.not_mem_nil b)
  | cons hhd htl ih =>
    intro b hb
    rcases List.mem_cons.mp hb with rfl | hb
    · exact ⟨_, List.mem_cons_self _ _, hhd⟩
    · obtain ⟨a, ha, hab⟩ := ih b hb
      exact ⟨a, List.mem_cons_of_mem _ ha, hab⟩

/-- Characterization of a successful readFrame in terms of its line's parsed structure. -/
theorem readFrame_ok (s : String) (j bones : Json) (kps : List Json)
    (h1 : json_loads s = Except.ok j)
    (h2 : pyIndexStr j ("Bones") = Except.ok bones)
    (h3 : pyIter bones = Except.ok kps)
    (h4 : ∀ kp ∈ kps, ∃ q, extractKp kp = Except.ok q) :
    ∃ fr : Frame, readFrame s = Except.ok fr ∧
      fr.x.length = kps.length ∧ fr.y.length = kps.length ∧
      fr.z.length = kps.length ∧ fr.labels.length = kps.length ∧
      fr.labels = kps.map kpNameJ := by
  obtain ⟨quads, hqs, hrel⟩ := extractAll_ok kps h4
  refine ⟨⟨quads.map (fun q => q.1), quads.map (fun q => q.2.1),
           quads.map (fun q => q.2.2.1), quads.map (fun q => q.2.2.2)⟩, ?_, ?_, ?_, ?_, ?_, ?_⟩
  · simp [readFrame, h1, h2, h3, hqs, bind, Except.bind, pure, Except.pure]
  · simp [List.Forall₂.length_eq hrel]
  · simp [List.Forall₂.length_eq hrel]
  · simp [List.Forall₂.length_eq hrel]
  · simp [List.Forall₂.length_eq hrel]
  · show List.map (fun (q : Json × Json × Json × Json) => q.2.2.2) quads = List.map kpNameJ kps
    have hmap := forall₂_map_eq (fun (q : Json × Json × Json × Json) => q.2.2.2) kpNameJ
      (List.Forall₂.imp (fun a b hab => extractKp_name a b hab) hrel)
    rw [hmap]

/-- C1: for every non-empty set of x, y, z position arrays, get_scatter_scale computes, for
each axis, the span over all frames and keypoints combined, takes max_range as half the
largest span, takes mid as half of max plus min per axis, and returns for each axis the pair
of mid minus max_range and mid plus max_range. -/
theorem claim_C1 (x y z : List (List ℚ)) (Mx mx My my Mz mz : ℚ)
    (hMx1 : Mx ∈ x.flatten) (hMx2 : ∀ a ∈ x.flatten, a ≤ Mx)
    (hmx1 : mx ∈ x.flatten) (hmx2 : ∀ a ∈ x.flatten, mx ≤ a)
    (hMy1 : My ∈ y.flatten) (hMy2 : ∀ a ∈ y.flatten, a ≤ My)
    (hmy1 : my ∈ y.flatten) (hmy2 : ∀ a ∈ y.flatten, my ≤ a)
    (hMz1 : Mz ∈ z.flatten) (hMz2 : ∀ a ∈ z.flatten, a ≤ Mz)
    (hmz1 : mz ∈ z.flatten) (hmz2 : ∀ a ∈ z.flatten, mz ≤ a) :
    get_scatter_scale x y z = Except.ok
      [[(Mx + mx) * (1 / 2) - max (max (Mx - mx) (My - my)) (Mz - mz) * (1 / 2),
        (Mx + mx) * (1 / 2) + max (max (Mx - mx) (My - my)) (Mz - mz) * (1 / 2)],
       [(My + my) * (1 / 2) - max (max (Mx - mx) (My - my)) (Mz - mz) * (1 / 2),
        (My + my) * (1 / 2) + max (max (Mx - mx) (My - my)) (Mz - mz) * (1 / 2)],
       [(Mz + mz) * (1 / 2) - max (max (Mx - mx) (My - my)) (Mz - mz) * (1 / 2),
        (Mz + mz) * (1 / 2) + max (max (Mx - mx) (My - my)) (Mz - mz) * (1 / 2)]] :=
  get_scatter_scale_eq x y z Mx mx My my Mz mz
    (amax_eq_of x Mx hMx1 hMx2) (amin_eq_of x mx hmx1 hmx2)
    (amax_eq_of y My hMy1 hMy2) (amin_eq_of y my hmy1 hmy2)
    (amax_eq_of z Mz hMz1 hMz2) (amin_eq_of z mz hmz1 hmz2)

/-- Witness for C1 at x rows [[0, 2]], y rows [[0, 1]], z rows [[0, 0]]. -/
theorem claim_C1_witness :
    ((2:ℚ) ∈ [[(0:ℚ), 2]].flatten) ∧ (∀ a ∈ [[(0:ℚ), 2]].flatten, a ≤ 2) ∧
    ((0:ℚ) ∈ [[(0:ℚ), 2]].flatten) ∧ (∀ a ∈ [[(0:ℚ), 2]].flatten, 0 ≤ a) ∧
    ((1:ℚ) ∈ [[(0:ℚ), 1]].flatten) ∧ (∀ a ∈ [[(0:ℚ), 1]].flatten, a ≤ 1) ∧
    ((0:ℚ) ∈ [[(0:ℚ), 1]].flatten) ∧ (∀ a ∈ [[(0:ℚ), 1]].flatten, 0 ≤ a) ∧
    ((0:ℚ) ∈ [[(0:ℚ), 0]].flatten) ∧ (∀ a ∈ [[(0:ℚ), 0]].flatten, a ≤ 0) ∧
    ((0:ℚ) ∈ [[(0:ℚ), 0]].flatten) ∧ (∀ a ∈ [[(0:ℚ), 0]].flatten, 0 ≤ a) ∧
    get_scatter_scale [[0, 2]] [[0, 1]] [[0, 0]] = Except.ok
      [[((2:ℚ) + 0) * (1 / 2) - max (max ((2:ℚ) - 0) (1 - 0)) (0 - 0) * (1 / 2),
        ((2:ℚ) + 0) * (1 / 2) + max (max ((2:ℚ) - 0) (1 - 0)) (0 - 0) * (1 / 2)],
       [((1:ℚ) + 0) * (1 / 2) - max (max ((2:ℚ) - 0) (1 - 0)) (0 - 0) * (1 / 2),
        ((1:ℚ) + 0) * (1 / 2) + max (max ((2:ℚ) - 0) (1 - 0)) (0 - 0) * (1 / 2)],
       [((0:ℚ) + 0) * (1 / 2) - max (max ((2:ℚ) - 0) (1 - 0)) (0 - 0) * (1 / 2),
        ((0:ℚ) + 0) * (1 / 2) + max (max ((2:ℚ) - 0) (1 - 0)) (0 - 0) * (1 / 2)]] :=
  ⟨by decide, by decide, by decide, by decide, by decide, by decide,
   by decide, by decide, by decide, by decide, by decide, by decide,
   claim_C1 [[0, 2]] [[0, 1]] [[0, 0]] 2 0 1 0 0 0
     (by decide) (by decide) (by decide) (by decide) (by decide) (by decide)
     (by decide) (by decide) (by decide) (by decide) (by decide) (by decide)⟩

/-- C3: for every non-empty Track, each axis pair returned by get_scatter_scale contains all
of that axis's positions, and the width of the pair is equal across the three axes. -/
theorem claim_C3 (x y z : List (List ℚ))
    (hx : x.flatten ≠ []) (hy : y.flatten ≠ []) (hz : z.flatten ≠ []) :
    ∃ xlo xhi ylo yhi zlo zhi : ℚ,
      get_scatter_scale x y z = Except.ok [[xlo, xhi], [ylo, yhi], [zlo, zhi]] ∧
      (∀ a ∈ x.flatten, xlo ≤ a ∧ a ≤ xhi) ∧
      (∀ a ∈ y.flatten, ylo ≤ a ∧ a ≤ yhi) ∧
      (∀ a ∈ z.flatten, zlo ≤ a ∧ a ≤ zhi) ∧
      xhi - xlo = yhi - ylo ∧ yhi - ylo = zhi - zlo := by
  obtain ⟨Mx, hMx, hMxm, hMxb⟩ := amax_spec x hx
  obtain ⟨mx, hmx, hmxm, hmxb⟩ := amin_spec x hx
  obtain ⟨My, hMy, hMym, hMyb⟩ := amax_spec y hy
  obtain ⟨my, hmy, hmym, hmyb⟩ := amin_spec y hy
  obtain ⟨Mz, hMz, hMzm, hMzb⟩ := amax_spec z hz
  obtain ⟨mz, hmz, hmzm, hmzb⟩ := amin_spec z hz
  have hsx : Mx - mx ≤ max (max (Mx - mx) (My - my)) (Mz - mz) :=
    le_trans (le_max_left _ _) (le_max_left _ _)
  have hsy : My - my ≤ max (max (Mx - mx) (My - my)) (Mz - mz) :=
    le_trans (le_max_right _ _) (le_max_left _ _)
  have hsz : Mz - mz ≤ max (max (Mx - mx) (My - my)) (Mz - mz) :=
    le_max_right _ _
  refine ⟨_, _, _, _, _, _,
    get_scatter_scale_eq x y z Mx mx My my Mz mz hMx hmx hMy hmy hMz hmz, ?_, ?_, ?_, by ring, by ring⟩
  · intro a ha
    have h1 := hmxb a ha
    have h2 := hMxb a ha
    constructor <;> linarith
  · intro a ha
    have h1 := hmyb a ha
    have h2 := hMyb a ha
    constructor <;> linarith
  · intro a ha
    have h1 := hmzb a ha
    have h2 := hMzb a ha
    constructor <;> linarith

/-- Witness for C3 at x rows [[0, 2]], y rows [[0, 1]], z rows [[0, 0]]. -/
theorem claim_C3_witness :
    ([[(0:ℚ), 2]].flatten ≠ []) ∧ ([[(0:ℚ), 1]].flatten ≠ []) ∧ ([[(0:ℚ), 0]].flatten ≠ []) ∧
    (∃ xlo xhi ylo yhi zlo zhi : ℚ,
      get_scatter_scale [[0, 2]] [[0, 1]] [[0, 0]] =
        Except.ok [[xlo, xhi], [ylo, yhi], [zlo, zhi]] ∧
      (∀ a ∈ [[(0:ℚ), 2]].flatten, xlo ≤ a ∧ a ≤ xhi) ∧
      (∀ a ∈ [[(0:ℚ), 1]].flatten, ylo ≤ a ∧ a ≤ yhi) ∧
      (∀ a ∈ [[(0:ℚ), 0]].flatten, zlo ≤ a ∧ a ≤ zhi) ∧
      xhi - xlo = yhi - ylo ∧ yhi - ylo = zhi - zlo) :=
  ⟨by decide, by decide, by decide,
   claim_C3 [[0, 2]] [[0, 1]] [[0, 0]] (by decide) (by decide) (by decide)⟩

/-- C4: for every non-empty Track and each axis, the midpoint of the returned pair equals the
midpoint of that axis's own actual extrema. -/
theorem claim_C4 (x y z : List (List ℚ)) (Mx mx My my Mz mz : ℚ)
    (hMx1 : Mx ∈ x.flatten) (hMx2 : ∀ a ∈ x.flatten, a ≤ Mx)
    (hmx1 : mx ∈ x.flatten) (hmx2 : ∀ a ∈ x.flatten, mx ≤ a)
    (hMy1 : My ∈ y.flatten) (hMy2 : ∀ a ∈ y.flatten, a ≤ My)
    (hmy1 : my ∈ y.flatten) (hmy2 : ∀ a ∈ y.flatten, my ≤ a)
    (hMz1 : Mz ∈ z.flatten) (hMz2 : ∀ a ∈ z.flatten, a ≤ Mz)
    (hmz1 : mz ∈ z.flatten) (hmz2 : ∀ a ∈ z.flatten, mz ≤ a) :
    ∃ xlo xhi ylo yhi zlo zhi : ℚ,
      get_scatter_scale x y z = Except.ok [[xlo, xhi], [ylo, yhi], [zlo, zhi]] ∧
      (xlo + xhi) / 2 = (Mx + mx) / 2 ∧
      (ylo + yhi) / 2 = (My + my) / 2 ∧
      (zlo + zhi) / 2 = (Mz + mz) / 2 :=
  ⟨_, _, _, _, _, _,
   get_scatter_scale_eq x y z Mx mx My my Mz mz
     (amax_eq_of x Mx hMx1 hMx2) (amin_eq_of x mx hmx1 hmx2)
     (amax_eq_of y My hMy1 hMy2) (amin_eq_of y my hmy1 hmy2)
     (amax_eq_of z Mz hMz1 hMz2) (amin_eq_of z mz hmz1 hmz2),
   by ring, by ring, by ring⟩

/-- Witness for C4 at x rows [[0, 2]], y rows [[0, 1]], z rows [[0, 0]]. -/
theorem claim_C4_witness :
    ((2:ℚ) ∈ [[(0:ℚ), 2]].flatten) ∧ (∀ a ∈ [[(0:ℚ), 2]].flatten, a ≤ 2) ∧
    ((0:ℚ) ∈ [[(0:ℚ), 2]].flatten) ∧ (∀ a ∈ [[(0:ℚ), 2]].flatten, 0 ≤ a) ∧
    ((1:ℚ) ∈ [[(0:ℚ), 1]].flatten) ∧ (∀ a ∈ [[(0:ℚ), 1]].flatten, a ≤ 1) ∧
    ((0:ℚ) ∈ [[(0:ℚ), 1]].flatten) ∧ (∀ a ∈ [[(0:ℚ), 1]].flatten, 0 ≤ a) ∧
    ((0:ℚ) ∈ [[(0:ℚ), 0]].flatten) ∧ (∀ a ∈ [[(0:ℚ), 0]].flatten, a ≤ 0) ∧
    ((0:ℚ) ∈ [[(0:ℚ), 0]].flatten) ∧ (∀ a ∈ [[(0:ℚ), 0]].flatten, 0 ≤ a) ∧
    (∃ xlo xhi ylo yhi zlo zhi : ℚ,
      get_scatter_scale [[0, 2]] [[0, 1]] [[0, 0]] =
        Except.ok [[xlo, xhi], [ylo, yhi], [zlo, zhi]] ∧
      (xlo + xhi) / 2 = ((2:ℚ) + 0) / 2 ∧
      (ylo + yhi) / 2 = ((1:ℚ) + 0) / 2 ∧
      (zlo + zhi) / 2 = ((0:ℚ) + 0) / 2) :=
  ⟨by decide, by decide, by decide, by decide, by decide, by decide,
   by decide, by decide, by decide, by decide, by decide, by decide,
   claim_C4 [[0, 2]] [[0, 1]] [[0, 0]] 2 0 1 0 0 0
     (by decide) (by decide) (by decide) (by decide) (by decide) (by decide)
     (by decide) (by decide) (by decide) (by decide) (by decide) (by decide)⟩

/-- C7: when every position on every axis equals 5, get_scatter_scale returns the pair
of 5 and 5 on every axis: zero span gives a zero max_range and no epsilon guard exists. -/
theorem claim_C7 (x y z : List (List ℚ))
    (hx : x.flatten ≠ []) (hx5 : ∀ a ∈ x.flatten, a = 5)
    (hy : y.flatten ≠ []) (hy5 : ∀ a ∈ y.flatten, a = 5)
    (hz : z.flatten ≠ []) (hz5 : ∀ a ∈ z.flatten, a = 5) :
    get_scatter_scale x y z = Except.ok [[5, 5], [5, 5], [5, 5]] := by
  have hmem : ∀ (w : List (List ℚ)), w.flatten ≠ [] → (∀ a ∈ w.flatten, a = 5) →
      (5:ℚ) ∈ w.flatten := by
    intro w hw hw5
    cases hfw : w.flatten with
    | nil => exact absurd hfw hw
    | cons a as =>
      have ha : a = 5 := hw5 a (by rw [hfw]; exact List.mem_cons_self a as)
      rw [← ha]
      exact List.mem_cons_self a as
  have heq := get_scatter_scale_eq x y z 5 5 5 5 5 5
    (amax_eq_of x 5 (hmem x hx hx5) (fun b hb => le_of_eq (hx5 b hb)))
    (amin_eq_of x 5 (hmem x hx hx5) (fun b hb => le_of_eq (hx5 b hb).symm))
    (amax_eq_of y 5 (hmem y hy hy5) (fun b hb => le_of_eq (hy5 b hb)))
    (amin_eq_of y 5 (hmem y hy hy5) (fun b hb => le_of_eq (hy5 b hb).symm))
    (amax_eq_of z 5 (hmem z hz hz5) (fun b hb => le_of_eq (hz5 b hb)))
    (amin_eq_of z 5 (hmem z hz hz5) (fun b hb => le_of_eq (hz5 b hb).symm))
  rw [heq]
  norm_num

/-- Witness for C7 at the single-frame single-keypoint Track with all coordinates 5. -/
theorem claim_C7_witness :
    ([[(5:ℚ)]].flatten ≠ []) ∧ (∀ a ∈ [[(5:ℚ)]].flatten, a = 5) ∧
    get_scatter_scale [[5]] [[5]] [[5]] = Except.ok [[5, 5], [5, 5], [5, 5]] :=
  ⟨by decide, by decide,
   claim_C7 [[5]] [[5]] [[5]] (by decide) (by decide) (by decide)
     (by decide) (by decide) (by decide)⟩

/-- Counterexample to C9: on empty input arrays get_scatter_scale does not complete with a
value at all; the very first reduction np.amax raises ValueError on a zero-size array. -/
theorem claim_C9_counterexample :
    get_scatter_scale [] [] [] = Except.error PyExc.valueError ∧
    isOkE (get_scatter_scale [] [] []) = false :=
  ⟨rfl, rfl⟩

/-- C9 amended: when the position arrays are empty, get_scatter_scale raises ValueError from
the empty-array reduction instead of completing with not-a-number values. -/
theorem claim_C9_amended (x y z : List (List ℚ)) (h : x.flatten = []) :
    get_scatter_scale x y z = Except.error PyExc.valueError := by
  have hx : amax x = Except.error PyExc.valueError := by
    simp [amax, h]
  simp [get_scatter_scale, hx, bind, Except.bind]

/-- Witness for the amended C9 at fully empty input. -/
theorem claim_C9_amended_witness :
    (List.flatten ([] : List (List ℚ)) = []) ∧
    get_scatter_scale [] [] [] = Except.error PyExc.valueError :=
  ⟨rfl, claim_C9_amended [] [] [] rfl⟩

/-- C5: whenever the per-line parse reports an end-of-input condition on line M plus one after
M lines parsed, the line loop of json_to_ndarray stops at once and returns, without error, the
Track of exactly the M accumulated frames; the partial lists of the failing line are dropped.
The loop is stated over its parse parameter because the line parse of the source, json.loads,
can itself never raise EOFError; json_to_ndarray is this loop applied to readFrame. -/
theorem claim_C5 (parse : String → Except PyExc Frame) (pre : List String) (s : String)
    (post : List String) (frames : List Frame)
    (h1 : List.Forall₂ (fun l fr => parse l = Except.ok fr) pre frames)
    (h2 : parse s = Except.error PyExc.eofError) :
    loadLoop parse (pre ++ s :: post) Track.empty = Except.ok (trackOf frames) ∧
    (trackOf frames).x.length = pre.length ∧ (trackOf frames).y.length = pre.length ∧
    (trackOf frames).z.length = pre.length ∧ (trackOf frames).labels.length = pre.length ∧
    json_to_ndarray (pre ++ s :: post) = loadLoop readFrame (pre ++ s :: post) Track.empty := by
  have hlen := List.Forall₂.length_eq h1
  refine ⟨?_, ?_, ?_, ?_, ?_, rfl⟩
  · rw [loadLoop_append parse pre frames (s :: post) Track.empty h1]
    simp [loadLoop, h2, trackOf]
  · rw [trackOf_x, List.length_map, ← hlen]
  · rw [trackOf_y, List.length_map, ← hlen]
  · rw [trackOf_z, List.length_map, ← hlen]
  · rw [trackOf_labels, List.length_map, ← hlen]

/-- Witness for C5: one parsed line, then a line that reports end of input, then one more. -/
theorem claim_C5_witness :
    (List.Forall₂ (fun l fr => parseEofW l = Except.ok fr) [("a")] [Frame.mk [] [] [] []]) ∧
    (parseEofW ("b") = Except.error PyExc.eofError) ∧
    (loadLoop parseEofW ([("a")] ++ ("b") :: [("a")]) Track.empty =
       Except.ok (trackOf [Frame.mk [] [] [] []]) ∧
     (trackOf [Frame.mk [] [] [] []]).x.length = [("a")].length ∧
     (trackOf [Frame.mk [] [] [] []]).y.length = [("a")].length ∧
     (trackOf [Frame.mk [] [] [] []]).z.length = [("a")].length ∧
     (trackOf [Frame.mk [] [] [] []]).labels.length = [("a")].length ∧
     json_to_ndarray ([("a")] ++ ("b") :: [("a")]) =
       loadLoop readFrame ([("a")] ++ ("b") :: [("a")]) Track.empty) := by
  have hf : List.Forall₂ (fun l fr => parseEofW l = Except.ok fr) [("a")] [Frame.mk [] [] [] []] :=
    List.Forall₂.cons rfl List.Forall₂.nil
  exact ⟨hf, rfl, claim_C5 parseEofW [("a")] ("b") [("a")] [Frame.mk [] [] [] []] hf rfl⟩

/-- C6: a line whose parse raises any condition other than end of input is not caught: after
any block of parsed lines, json_to_ndarray propagates that error to the caller, whatever
lines follow; no bad frame is skipped. -/
theorem claim_C6 (pre : List String) (s : String) (post : List String) (frames : List Frame)
    (e : PyExc)
    (h1 : List.Forall₂ (fun l fr => readFrame l = Except.ok fr) pre frames)
    (h2 : readFrame s = Except.error e) (h3 : e ≠ PyExc.eofError) :
    json_to_ndarray (pre ++ s :: post) = Except.error e := by
  unfold json_to_ndarray
  rw [loadLoop_append readFrame pre frames (s :: post) Track.empty h1]
  cases e with
  | eofError => exact absurd rfl h3
  | jsonDecodeError => simp [loadLoop, h2]
  | keyError k => simp [loadLoop, h2]
  | typeError => simp [loadLoop, h2]
  | valueError => simp [loadLoop, h2]

/-- Witness for C6: a lone malformed line, an unterminated JSON object. -/
theorem claim_C6_witness :
    (readFrame ("\x7b") = Except.error PyExc.jsonDecodeError) ∧
    (PyExc.jsonDecodeError ≠ PyExc.eofError) ∧
    json_to_ndarray ([] ++ ("\x7b") :: []) = Except.error PyExc.jsonDecodeError :=
  ⟨rfl, by decide,
   claim_C6 [] ("\x7b") [] [] PyExc.jsonDecodeError List.Forall₂.nil rfl (by decide)⟩

/-- Skipping whitespace over an all-whitespace character list leaves nothing. -/
theorem skipWs_eq_nil : ∀ (cs : List Char), (∀ c ∈ cs, isWsC c = true) → skipWs cs = [] := by
  intro cs
  induction cs with
  | nil => intro _; rfl
  | cons c rest ih =>
    intro h
    have hc := h c (List.mem_cons_self c rest)
    simp only [skipWs, hc, if_true]
    exact ih (fun d hd => h d (List.mem_cons_of_mem c hd))

/-- json.loads raises the decode error on an empty or whitespace-only line. -/
theorem json_loads_wsOnly (s : String) (h : isWsOnly s = true) :
    json_loads s = Except.error PyExc.jsonDecodeError := by
  have hall : ∀ c ∈ s.data, isWsC c = true := by
    intro c hc
    exact List.all_eq_true.mp h c hc
  have hskip := skipWs_eq_nil s.data hall
  simp [json_loads, parseVal, hskip]

/-- readFrame fails with the decode error on an empty or whitespace-only line. -/
theorem readFrame_wsOnly (s : String) (h : isWsOnly s = true) :
    readFrame s = Except.error PyExc.jsonDecodeError := by
  simp [readFrame, json_loads_wsOnly s h, bind, Except.bind]

/-- C10: an empty or whitespace-only line makes json_to_ndarray fail with the decode error at
that line, after any block of parsed lines and whatever valid lines follow; the line is
neither skipped nor treated as an end-of-input condition. -/
theorem claim_C10 (pre : List String) (s : String) (post : List String) (frames : List Frame)
    (h1 : List.Forall₂ (fun l fr => readFrame l = Except.ok fr) pre frames)
    (h2 : isWsOnly s = true) :
    json_to_ndarray (pre ++ s :: post) = Except.error PyExc.jsonDecodeError := by
  unfold json_to_ndarray
  rw [loadLoop_append readFrame pre frames (s :: post) Track.empty h1]
  simp [loadLoop, readFrame_wsOnly s h2]

/-- Witness for C10: a valid line, a whitespace-only line, then another valid line. -/
theorem claim_C10_witness :
    (List.Forall₂ (fun l fr => readFrame l = Except.ok fr) [lineEmptyBones]
      [Frame.mk [] [] [] []]) ∧
    (isWsOnly (" ") = true) ∧
    json_to_ndarray ([lineEmptyBones] ++ (" ") :: [lineEmptyBones]) =
      Except.error PyExc.jsonDecodeError := by
  have hf : List.Forall₂ (fun l fr => readFrame l = Except.ok fr) [lineEmptyBones]
      [Frame.mk [] [] [] []] :=
    List.Forall₂.cons rfl List.Forall₂.nil
  exact ⟨hf, rfl, claim_C10 [lineEmptyBones] (" ") [lineEmptyBones] [Frame.mk [] [] [] []] hf rfl⟩

/-- A block of structurally well-formed lines yields frames of matching shapes and labels. -/
theorem frames_exist : ∀ (lines : List String) (kpss : List (List Json)),
    List.Forall₂ (fun s kps => ∃ j bones, json_loads s = Except.ok j ∧
      pyIndexStr j ("Bones") = Except.ok bones ∧ pyIter bones = Except.ok kps) lines kpss →
    (∀ kps ∈ kpss, ∀ kp ∈ kps, ∃ q, extractKp kp = Except.ok q) →
    ∃ frames : List Frame,
      List.Forall₂ (fun l fr => readFrame l = Except.ok fr) lines frames ∧
      List.Forall₂ (fun kps (fr : Frame) => fr.x.length = kps.length ∧
        fr.y.length = kps.length ∧ fr.z.length = kps.length ∧
        fr.labels.length = kps.length ∧ fr.labels = kps.map kpNameJ) kpss frames := by
  intro lines kpss h
  induction h with
  | nil => intro _; exact ⟨[], List.Forall₂.nil, List.Forall₂.nil⟩
  | cons hhd htl ih =>
    intro hkp
    obtain ⟨j, bones, hj, hb, hi⟩ := hhd
    obtain ⟨fr, hfr, px, py, pz, pl, plab⟩ := readFrame_ok _ j bones _ hj hb hi
      (hkp _ (List.mem_cons_self _ _))
    obtain ⟨frames, hf1, hf2⟩ := ih (fun kps hk => hkp kps (List.mem_cons_of_mem _ hk))
    exact ⟨fr :: frames, List.Forall₂.cons hfr hf1,
      List.Forall₂.cons ⟨px, py, pz, pl, plab⟩ hf2⟩

/-- C2: on a well-formed line-delimited input of N lines of K keypoints each, json_to_ndarray
returns four arrays of outer length N whose inner rows all have length K, and the label rows
equal the input keypoint Name values in their original per-frame order. -/
theorem claim_C2 (lines : List String) (kpss : List (List Json)) (K : Nat)
    (hline : List.Forall₂ (fun s kps => ∃ j bones, json_loads s = Except.ok j ∧
      pyIndexStr j ("Bones") = Except.ok bones ∧ pyIter bones = Except.ok kps) lines kpss)
    (hkp : ∀ kps ∈ kpss, ∀ kp ∈ kps, ∃ q, extractKp kp = Except.ok q)
    (hK : ∀ kps ∈ kpss, kps.length = K) :
    ∃ t : Track, json_to_ndarray lines = Except.ok t ∧
      t.x.length = lines.length ∧ t.y.length = lines.length ∧
      t.z.length = lines.length ∧ t.labels.length = lines.length ∧
      (∀ r ∈ t.x, r.length = K) ∧ (∀ r ∈ t.y, r.length = K) ∧
      (∀ r ∈ t.z, r.length = K) ∧ (∀ r ∈ t.labels, r.length = K) ∧
      t.labels = kpss.map (fun kps => kps.map kpNameJ) := by
  obtain ⟨frames, hf1, hf2⟩ := frames_exist lines kpss hline hkp
  have hlen1 := List.Forall₂.length_eq hf1
  refine ⟨trackOf frames, loadLoop_all_ok readFrame lines frames hf1, ?_, ?_, ?_, ?_,
    ?_, ?_, ?_, ?_, ?_⟩
  · rw [trackOf_x, List.length_map, ← hlen1]
  · rw [trackOf_y, List.length_map, ← hlen1]
  · rw [trackOf_z, List.length_map, ← hlen1]
  · rw [trackOf_labels, List.length_map, ← hlen1]
  · rw [trackOf_x]
    intro r hr
    obtain ⟨fr, hfrm, rfl⟩ := List.mem_map.mp hr
    obtain ⟨kps, hkm, hprops⟩ := forall₂_mem_right hf2 fr hfrm
    rw [hprops.1, hK kps hkm]
  · rw [trackOf_y]
    intro r hr
    obtain ⟨fr, hfrm, rfl⟩ := List.mem_map.mp hr
    obtain ⟨kps, hkm, hprops⟩ := forall₂_mem_right hf2 fr hfrm
    rw [hprops.2.1, hK kps hkm]
  · rw [trackOf_z]
    intro r hr
    obtain ⟨fr, hfrm, rfl⟩ := List.mem_map.mp hr
    obtain ⟨kps, hkm, hprops⟩ := forall₂_mem_right hf2 fr hfrm
    rw [hprops.2.2.1, hK kps hkm]
  · rw [trackOf_labels]
    intro r hr
    obtain ⟨fr, hfrm, rfl⟩ := List.mem_map.mp hr
    obtain ⟨kps, hkm, hprops⟩ := forall₂_mem_right hf2 fr hfrm
    rw [hprops.2.2.2.1, hK kps hkm]
  · rw [trackOf_labels]
    have hmap := forall₂_map_eq (fun fr : Frame => fr.labels)
      (fun kps : List Json => kps.map kpNameJ)
      (List.Forall₂.imp (fun kps fr hkf => hkf.2.2.2.2.symm) hf2)
    rw [← hmap]

/-- Witness for C2: a one-line input holding one keypoint named Head at (1, 2, 3). -/
theorem claim_C2_witness :
    (List.Forall₂ (fun s kps => ∃ j bones, json_loads s = Except.ok j ∧
      pyIndexStr j ("Bones") = Except.ok bones ∧ pyIter bones = Except.ok kps)
      [lineOneKp] [[kpOneKp]]) ∧
    (∀ kps ∈ [[kpOneKp]], ∀ kp ∈ kps, ∃ q, extractKp kp = Except.ok q) ∧
    (∀ kps ∈ [[kpOneKp]], kps.length = 1) ∧
    (∃ t : Track, json_to_ndarray [lineOneKp] = Except.ok t ∧
      t.x.length = [lineOneKp].length ∧ t.y.length = [lineOneKp].length ∧
      t.z.length = [lineOneKp].length ∧ t.labels.length = [lineOneKp].length ∧
      (∀ r ∈ t.x, r.length = 1) ∧ (∀ r ∈ t.y, r.length = 1) ∧
      (∀ r ∈ t.z, r.length = 1) ∧ (∀ r ∈ t.labels, r.length = 1) ∧
      t.labels = [[kpOneKp]].map (fun kps => kps.map kpNameJ)) := by
  have h1 : List.Forall₂ (fun s kps => ∃ j bones, json_loads s = Except.ok j ∧
      pyIndexStr j ("Bones") = Except.ok bones ∧ pyIter bones = Except.ok kps)
      [lineOneKp] [[kpOneKp]] :=
    List.Forall₂.cons ⟨docOneKp, Json.arr [kpOneKp], rfl, rfl, rfl⟩ List.Forall₂.nil
  have h2 : ∀ kps ∈ [[kpOneKp]], ∀ kp ∈ kps, ∃ q, extractKp kp = Except.ok q := by
    intro kps hk kp hkp
    rw [List.mem_singleton.mp hk] at hkp
    rw [List.mem_singleton.mp hkp]
    exact ⟨(Json.num 1, Json.num 2, Json.num 3, Json.str ("Head")), rfl⟩
  have h3 : ∀ kps ∈ [[kpOneKp]], kps.length = 1 := by
    intro kps hk
    rw [List.mem_singleton.mp hk]
    rfl
  exact ⟨h1, h2, h3, claim_C2 [lineOneKp] [[kpOneKp]] 1 h1 h2 h3⟩

/-- Counterexample to C8: on the two-line scenario input the loader does yield the 2 by 2
Track with x spans 0 to 2, y spans 0 to 1, z all 0, but get_scatter_scale on those positions
does not return the y pair [0, 1] stated by the claim. -/
theorem claim_C8_counterexample :
    json_to_ndarray [line1C8, line2C8] = Except.ok trackC8 ∧
    trackC8.x.map (fun (r : List Json) => r.map jnum) = [[some 0, some 2], [some 0, some 2]] ∧
    trackC8.y.map (fun (r : List Json) => r.map jnum) = [[some 0, some 0], [some 1, some 1]] ∧
    trackC8.z.map (fun (r : List Json) => r.map jnum) = [[some 0, some 0], [some 0, some 0]] ∧
    get_scatter_scale [[0, 2], [0, 2]] [[0, 0], [1, 1]] [[0, 0], [0, 0]] ≠
      Except.ok [[0, 2], [0, 1], [-1, 1]] :=
  ⟨rfl, rfl, rfl, rfl, by decide⟩

/-- C8 amended: the two-line scenario input yields the 2 by 2 Track, max_range is 1, and the
bounding box is x from 0 to 2, y from minus one half to three halves, z from minus 1 to 1. -/
theorem claim_C8_amended :
    json_to_ndarray [line1C8, line2C8] = Except.ok trackC8 ∧
    trackC8.x.length = 2 ∧ (∀ r ∈ trackC8.x, r.length = 2) ∧
    trackC8.y.length = 2 ∧ (∀ r ∈ trackC8.y, r.length = 2) ∧
    trackC8.z.length = 2 ∧ (∀ r ∈ trackC8.z, r.length = 2) ∧
    trackC8.labels.length = 2 ∧ (∀ r ∈ trackC8.labels, r.length = 2) ∧
    trackC8.x.map (fun (r : List Json) => r.map jnum) = [[some 0, some 2], [some 0, some 2]] ∧
    trackC8.y.map (fun (r : List Json) => r.map jnum) = [[some 0, some 0], [some 1, some 1]] ∧
    trackC8.z.map (fun (r : List Json) => r.map jnum) = [[some 0, some 0], [some 0, some 0]] ∧
    max (max ((2:ℚ) - 0) (1 - 0)) (0 - 0) * (1 / 2) = 1 ∧
    get_scatter_scale [[0, 2], [0, 2]] [[0, 0], [1, 1]] [[0, 0], [0, 0]] =
      Except.ok [[0, 2], [-(1:ℚ)/2, 3/2], [-1, 1]] :=
  ⟨rfl, rfl, by decide, rfl, by decide, rfl, by decide, rfl, by decide,
   rfl, rfl, rfl, by decide, by decide⟩
